import Mathlib

/-!
Verification of the hh_preprocess record-normalization pipeline.

The Python handlers under `src/hh_preprocess/` are shallowly embedded:
pandas DataFrames become `Table` (column names plus rows of `Cell`s),
per-value parsers become pure Lean functions, Python floats become `ℚ`,
`NaN`/missing values become `Cell.nan` or `Option`, and raised
`ValueError`s become `Except.error`.
-/

namespace HH

/-- Characters matched by the Python regex class `\s` (ASCII whitespace)
together with the non-breaking space, which the source either replaces
explicitly (`normalize_spaces`) or includes in its regex class. -/
def isPySpace (c : Char) : Bool :=
  c == ' ' || c == '\t' || c == '\n' || c == '\r' ||
  c.toNat == 11 || c.toNat == 12 || c.toNat == 0xa0

/-- Lower-casing of one character as Python `str.lower` acts on the ASCII
and Cyrillic letters that occur in the repository keyword tables. -/
def lowerChar (c : Char) : Char :=
  if 0x41 ≤ c.toNat ∧ c.toNat ≤ 0x5a then Char.ofNat (c.toNat + 32)
  else if 0x410 ≤ c.toNat ∧ c.toNat ≤ 0x42f then Char.ofNat (c.toNat + 0x20)
  else if c.toNat = 0x401 then Char.ofNat 0x451
  else c

/-- Python `str.lower`. -/
def pyLower (s : String) : String := String.mk (s.data.map lowerChar)

/-- Collapse each run of adjacent spaces into one space; models
`re.sub(r"\s+", " ", ...)` after every whitespace character has been
mapped to a plain space. -/
def squeezeSpaces : List Char → List Char
  | [] => []
  | [c] => [c]
  | a :: b :: rest =>
    if a == ' ' && b == ' ' then squeezeSpaces (b :: rest)
    else a :: squeezeSpaces (b :: rest)

/-- Python `str.strip` restricted to the plain space (after normalization
only plain spaces can remain at the ends). -/
def trimSpaces (cs : List Char) : List Char :=
  ((cs.dropWhile (fun c => c == ' ')).reverse.dropWhile (fun c => c == ' ')).reverse

/-- `normalize_spaces` from `utils/text.py`: replace the non-breaking
space, collapse whitespace runs to a single space, strip the ends. -/
def normalize_spaces (s : String) : String :=
  String.mk (trimSpaces (squeezeSpaces (s.data.map (fun c => if isPySpace c then ' ' else c))))

/-- `safe_lower` from `utils/text.py` applied to an actual string. -/
def safe_lower_str (s : String) : String := pyLower (normalize_spaces s)

/-- Does the pattern occur at the head of the list? -/
def leadsWith : List Char → List Char → Bool
  | [], _ => true
  | _ :: _, [] => false
  | a :: as, b :: bs => a == b && leadsWith as bs

/-- Does the pattern occur anywhere in the list? -/
def containsSub (needle : List Char) : List Char → Bool
  | [] => needle.isEmpty
  | c :: rest => leadsWith needle (c :: rest) || containsSub needle rest

/-- Python substring test `needle in hay`. -/
def strContains (hay needle : String) : Bool := containsSub needle.data hay.data

/-- A table cell: the object values the pipeline distinguishes — strings,
floats (modelled as rationals), booleans, and the missing value `NaN`. -/
inductive Cell where
  | str (s : String)
  | num (q : ℚ)
  | bool (b : Bool)
  | nan
deriving DecidableEq

/-- `safe_lower` from `utils/text.py` on an arbitrary cell value
(the empty string for anything that is not a string). -/
def safe_lower_cell : Cell → String
  | Cell.str s => safe_lower_str s
  | _ => ""

/-- The working DataFrame: column names plus rows of cells, row major. -/
structure Table where
  cols : List String
  rows : List (List Cell)
deriving DecidableEq

/-- Index of the first column with the given exact name. -/
def idxOfName (name : String) : List String → Option Nat
  | [] => none
  | c :: rest => if c == name then some 0 else (idxOfName name rest).map (fun n => n + 1)

/-- Index of the first column whose name satisfies the predicate
(models `next((c for c in df.columns if ...), None)`). -/
def findIdxP (p : String → Bool) : List String → Option Nat
  | [] => none
  | c :: rest => if p c then some 0 else (findIdxP p rest).map (fun n => n + 1)

/-- Pandas column assignment `df[name] = ...` where each row's new cell is
a function of that row alone: overwrite the column in place when it
exists, otherwise append it on the right. -/
def Table.withCol (t : Table) (name : String) (f : List Cell → Cell) : Table :=
  match idxOfName name t.cols with
  | some i => ⟨t.cols, t.rows.map (fun r => r.set i (f r))⟩
  | none => ⟨t.cols ++ [name], t.rows.map (fun r => r ++ [f r])⟩

/-- Pandas `df.drop(columns=names, errors="ignore")`. -/
def Table.dropCols (t : Table) (names : List String) : Table :=
  let keep := (List.range t.cols.length).filter (fun i => !(names.contains (t.cols.getD i "")))
  ⟨keep.map (fun i => t.cols.getD i ""), t.rows.map (fun r => keep.map (fun i => r.getD i Cell.nan))⟩

/-! ## Salary normalization (`handlers/parse_salary.py`) -/

/-- `_detect_currency` from `parse_salary.py`: scan for currency markers in
the source's fixed priority order over the lowered text. -/
def detect_currency (s : String) : Option String :=
  let t := pyLower s
  if strContains t "руб" || strContains t "rur" || strContains t "rub" || strContains t "₽" then some "RUB"
  else if strContains t "usd" || strContains t "$" then some "USD"
  else if strContains t "eur" || strContains t "€" then some "EUR"
  else if strContains t "kzt" || strContains t "тенге" then some "KZT"
  else if strContains t "byn" || strContains t "бел" then some "BYN"
  else if strContains t "uah" || strContains t "грн" then some "UAH"
  else if strContains t "uzs" || strContains t "сум" then some "UZS"
  else if strContains t "gel" || strContains t "лари" then some "GEL"
  else if strContains t "amd" || strContains t "драм" then some "AMD"
  else if strContains t "azn" || strContains t "манат" then some "AZN"
  else none

/-- Characters allowed after the leading digit of one number run by the
regex `\d[\d\s ]*`. -/
def numRunChar (c : Char) : Bool := c.isDigit || isPySpace c

/-- Numeric value of a list of decimal digits. -/
def digitsVal (cs : List Char) : Nat := cs.foldl (fun a c => a * 10 + (c.toNat - 48)) 0

/-- One regex match turned into a number: drop plain and non-breaking
spaces, then require the remainder to be digits (`raw.isdigit()`). -/
def runToNum (run : List Char) : Option Nat :=
  let raw := run.filter (fun c => !(c == ' ' || c.toNat == 0xa0))
  if !raw.isEmpty && raw.all Char.isDigit then some (digitsVal raw) else none

/-- The numbers contributed by one finished regex match. -/
def finishRun (run : List Char) : List Nat :=
  match runToNum run.reverse with
  | some n => [n]
  | none => []

/-- Left-to-right scan for the maximal (greedy) matches of
`\d[\d\s ]*`, exactly as `_NUM_RE.finditer` produces them: `run` holds
the characters of the current match in reverse order, and is empty when
the scanner is outside a match. -/
def goNums : List Char → List Char → List Nat
  | [], run => finishRun run
  | c :: rest, run =>
    if run.isEmpty then
      if c.isDigit then goNums rest [c] else goNums rest []
    else
      if numRunChar c then goNums rest (c :: run)
      else finishRun run ++ goNums rest []

/-- `_extract_numbers` from `parse_salary.py`. -/
def extract_numbers (s : String) : List Nat := goNums s.data []

/-- Amount resolution of lines 128–130: the first number found, replaced
by the average of the first two when at least two were found. -/
def resolveAmount : List Nat → Option ℚ
  | [] => none
  | [a] => some (a : ℚ)
  | a :: b :: _ => some (((a : ℚ) + (b : ℚ)) / 2)

/-- The magnitude guard of line 132: the lowered text contains "тыс" or
the letter "k" (anywhere). -/
def thousandCond (t : String) : Bool := strContains t "тыс" || strContains t "k"

/-- Magnitude adjustment of lines 132–133. -/
def applyThousand (t : String) (a : ℚ) : ℚ := if thousandCond t then a * 1000 else a

/-- The negotiable-salary guard of line 117. -/
def isNegotiable (t : String) : Bool :=
  strContains t "договор" || strContains t "по договор" || strContains t "negotiable"

/-- `fx.rates.get(cur)` over an association list of FX rates. -/
def lookupRate (rates : List (String × ℚ)) (cur : String) : Option ℚ :=
  match rates.find? (fun p => p.1 == cur) with
  | some p => some p.2
  | none => none

/-- The normalised, lowered text `t` the per-row salary loop works on
(`safe_lower` applied to the whitespace-normalised raw value). -/
def salaryNormText (v : String) : String := safe_lower_str (normalize_spaces v)

/-- The per-row salary loop of lines 110–139 up to the conversion to
roubles, before the non-positive rejection: `none` models a `continue`,
otherwise the converted amount is paired with the detected currency. -/
def salaryRowCore (rates : List (String × ℚ)) (val : Cell) : Option (ℚ × String) :=
  match val with
  | Cell.str v =>
    let s := normalize_spaces v
    if s = "" then none
    else
      let t := safe_lower_str s
      if isNegotiable t then none
      else
        let cur := (detect_currency s).getD "RUB"
        match resolveAmount (extract_numbers s) with
        | none => none
        | some a =>
          match lookupRate rates cur with
          | none => none
          | some rate => some (applyThousand t a * rate, cur)
  | _ => none

/-- The per-row salary result of lines 110–144: the pair of values the
loop stores into `target_salary_rub` and `salary_currency` for one row
(`(none, "")` is the untouched NaN/empty initialisation). -/
def parseSalaryCell (rates : List (String × ℚ)) (val : Cell) : Option ℚ × String :=
  match salaryRowCore rates val with
  | none => (none, "")
  | some (rub, cur) => if rub ≤ 0 then (none, "") else (some rub, cur)

/-- A float-or-NaN column value. -/
def optCell : Option ℚ → Cell
  | none => Cell.nan
  | some q => Cell.num q

/-- The FX Rate Provider result (`load_fx_rates`, an external
collaborator of the salary stage). -/
structure FxRates where
  rates : List (String × ℚ)
  source : String
deriving DecidableEq

/-- The diagnostics entries the salary stage writes into `ctx.diag`
(lines 103 and 149–155). -/
structure SalaryDiag where
  fx_rates_source : String
  rows_with_nan_target : Nat
  nan_target_examples : Option (List (Cell × String))
  target_zeros : Nat
deriving DecidableEq

/-- Index of the mandatory salary column `ЗП`. -/
def salIdx (t : Table) : Option Nat := idxOfName "ЗП" t.cols

/-- `ParseSalaryHandler._handle` on a table: precondition check on the
mandatory column, per-row parsing, the two derived columns, and the
diagnostics entries. A raised `ValueError` is modelled as `Except.error`. -/
def salaryStage (fx : FxRates) (t : Table) : Except String (Table × SalaryDiag) :=
  match salIdx t with
  | none => Except.error "Required target column ЗП not found"
  | some i =>
    let results := t.rows.map (fun r => (r.getD i Cell.nan, parseSalaryCell fx.rates (r.getD i Cell.nan)))
    let nulls := results.filter (fun p => Option.isNone p.2.1)
    Except.ok
      ((t.withCol "salary_currency" (fun r => Cell.str (parseSalaryCell fx.rates (r.getD i Cell.nan)).2)).withCol
        "target_salary_rub" (fun r => optCell (parseSalaryCell fx.rates (r.getD i Cell.nan)).1),
       { fx_rates_source := fx.source
         rows_with_nan_target := nulls.length
         nan_target_examples :=
           if nulls.isEmpty then none else some ((nulls.map (fun p => (p.1, p.2.2))).take 20)
         target_zeros := (results.filter (fun p => decide (p.2.1 = some (0 : ℚ)))).length })

/-- `ParseSalaryHandler._handle` including the `ctx.df is None`
precondition check. -/
def parseSalaryHandle (fx : FxRates) (df : Option Table) : Except String (Table × SalaryDiag) :=
  match df with
  | none => Except.error "DataFrame is not loaded"
  | some t => salaryStage fx t

/-! ## Job categories (`handlers/job_category.py`) -/

/-- The ordered category rules of `categorize_job_title`, one `(label,
keyword list)` pair per `if` of the source, in source order. -/
def jobRules : List (String × List String) :=
  [("Системный администратор", ["системный администратор", "system administrator", "sysadmin"]),
   ("DevOps/SRE", ["devops", "sre", "site reliability"]),
   ("Администратор баз данных", ["dba", "администратор баз данных", "database administrator"]),
   ("Data Scientist/ML", ["data scientist", "ds ", "ml engineer", "machine learning"]),
   ("Аналитик", ["аналитик данных", "data analyst", "bi analyst", "business analyst"]),
   ("Тестировщик", ["тестировщик", "qa", "quality assurance"]),
   ("Программист/Разработчик",
    ["разработчик", "программист", "developer", "software engineer", "backend", "frontend",
     "fullstack", "ios", "android", "java", "python", "c++", "golang", "php", "javascript",
     "node.js", "react", "vue", "1c", "1с", "unity"]),
   ("IT-специалист", ["it", "айти"]),
   ("Менеджер проектов/Продукта",
    ["product manager", "product owner", "продакт", "product", "проектный менеджер",
     "project manager", "pm "]),
   ("Маркетинг/PR/Контент",
    ["маркетолог", "marketing", "smm", "таргет", "seo", "контент", "pr", "copywriter",
     "копирайтер"]),
   ("Продажи/Клиенты",
    ["продаж", "sales", "account manager", "менеджер по работе с клиентами", "клиентами",
     "торговый представитель", "кассир"]),
   ("Финансы/Бухгалтерия",
    ["бухгалтер", "accountant", "финанс", "экономист", "аудитор", "финансовый"]),
   ("HR/Рекрутер", ["hr", "рекрутер", "подбор персонала", "recruiter", "talent"]),
   ("Юрист", ["юрист", "lawyer", "legal"]),
   ("Логистика/Склад/Транспорт",
    ["логист", "logistics", "склад", "warehouse", "курьер", "доставка", "водитель", "driver"]),
   ("Дизайн/Креатив",
    ["дизайнер", "designer", "ux", "ui", "graphic", "графический", "иллюстратор",
     "illustrator", "3d", "2d"]),
   ("Инженерия/Производство/Строительство",
    ["инженер", "engineer", "технолог", "электрик", "mechanic", "механик", "строител",
     "construction"]),
   ("Административный персонал",
    ["секретарь", "assistant", "ассистент", "офис-менеджер", "администратор", "reception"]),
   ("Оператор", ["оператор", "operator"]),
   ("Специалист (общий)", ["специалист", "specialist"])]

/-- Does a rule fire on the normalized text: any keyword is a substring. -/
def ruleMatches (t : String) (r : String × List String) : Bool :=
  r.2.any (fun k => strContains t k)

/-- `categorize_job_title` from `job_category.py`: normalize, then return
the label of the first rule with a keyword match; `Не указано` on empty
input, `Прочее` when no rule fires. -/
def categorize_job_title (title : Cell) : String :=
  if safe_lower_cell title = "" then "Не указано"
  else
    match jobRules.find? (ruleMatches (safe_lower_cell title)) with
    | some r => r.1
    | none => "Прочее"

/-- Index of the desired-job-title column (substring header lookup). -/
def desIdx (t : Table) : Option Nat :=
  findIdxP (fun c => strContains (pyLower c) "ищет работу на должность") t.cols

/-- Index of the current-job-title column (substring header lookup). -/
def curIdx (t : Table) : Option Nat :=
  findIdxP (fun c => strContains (pyLower c) "нынешняя должность" ||
                     strContains (pyLower c) "нынешняя должност") t.cols

/-- The per-row value written into `job_category`: the categorized desired
title, or the constant `Не указано` when the column is missing. -/
def jobCatF (t : Table) : List Cell → Cell :=
  match desIdx t with
  | none => fun _ => Cell.str "Не указано"
  | some i => fun r => Cell.str (categorize_job_title (r.getD i Cell.nan))

/-- The per-row value written into `current_job_category`. -/
def curCatF (t : Table) : List Cell → Cell :=
  match curIdx t with
  | none => fun _ => Cell.str "Не указано"
  | some i => fun r => Cell.str (categorize_job_title (r.getD i Cell.nan))

/-- The consumed title columns dropped after categorization. -/
def jobDropNames (t : Table) : List String :=
  (match desIdx t with | some i => [t.cols.getD i ""] | none => []) ++
  (match curIdx t with | some i => [t.cols.getD i ""] | none => [])

/-- Drop the employer column (substring header lookup) when present. -/
def dropEmployer (t : Table) : Table :=
  match t.cols.find? (fun c => strContains (pyLower c) "место работы") with
  | some c => t.dropCols [c]
  | none => t

/-- `JobCategoryHandler._handle` on a table. -/
def jobCategoryStage (t : Table) : Table :=
  dropEmployer
    (((t.withCol "job_category" (jobCatF t)).withCol "current_job_category" (curCatF t)).dropCols
      (jobDropNames t))

/-! ## Education parsing (`handlers/parse_education.py`) -/

/-- `parse_level` from `parse_education.py`: ordered keyword rules over
the closed set of education levels. -/
def parse_level (val : Cell) : String :=
  let t := safe_lower_cell val
  if t = "" then "Не указано"
  else if strContains t "доктор" then "Доктор наук"
  else if strContains t "кандидат" then "Кандидат наук"
  else if strContains t "неокончен" || strContains t "incomplete higher" then "Неоконченное высшее"
  else if strContains t "высшее" || strContains t "higher education" || strContains t "bachelor" ||
          strContains t "master" then "Высшее"
  else if strContains t "среднее специаль" || strContains t "college" || strContains t "vocational" then
    "Среднее специальное"
  else if strContains t "среднее" || strContains t "secondary" then "Среднее"
  else "Не указано"

/-- Leftmost match of the regex `(19\d{2}|20\d{2})`. -/
def findYear : List Char → Option Nat
  | c0 :: c1 :: c2 :: c3 :: rest =>
    if ((c0 == '1' && c1 == '9') || (c0 == '2' && c1 == '0')) && c2.isDigit && c3.isDigit then
      some ((c0.toNat - 48) * 1000 + (c1.toNat - 48) * 100 + (c2.toNat - 48) * 10 + (c3.toNat - 48))
    else findYear (c1 :: c2 :: c3 :: rest)
  | _ => none

/-- `parse_year` from `parse_education.py`: first 19xx/20xx token,
accepted only inside [1950, 2035]. -/
def parse_year (val : Cell) : Cell :=
  let t := safe_lower_cell val
  if t = "" then Cell.nan
  else
    match findYear t.data with
    | none => Cell.nan
    | some y => if 1950 ≤ y ∧ y ≤ 2035 then Cell.num (y : ℚ) else Cell.nan

/-- Index of the fixed-name education column. -/
def eduIdx (t : Table) : Option Nat := idxOfName "Образование и ВУЗ" t.cols

/-- The per-row value written into `education_level`. -/
def eduLevelF (t : Table) : List Cell → Cell :=
  match eduIdx t with
  | none => fun _ => Cell.str "Не указано"
  | some i => fun r => Cell.str (parse_level (r.getD i Cell.nan))

/-- The per-row value written into `education_year`. -/
def eduYearF (t : Table) : List Cell → Cell :=
  match eduIdx t with
  | none => fun _ => Cell.nan
  | some i => fun r => parse_year (r.getD i Cell.nan)

/-- `ParseEducationHandler._handle` on a table. -/
def educationStage (t : Table) : Table :=
  (t.withCol "education_level" (eduLevelF t)).withCol "education_year" (eduYearF t)

/-! ## Location parsing (`handlers/parse_location.py`) -/

/-- `parse_city` from `parse_location.py`: the normalized part before the
first comma, or `Не указано`. -/
def parse_city (s : Cell) : String :=
  match s with
  | Cell.str v =>
    let t := normalize_spaces v
    if t = "" then "Не указано"
    else normalize_spaces (String.mk (t.data.takeWhile (fun c => !(c == ','))))
  | _ => "Не указано"

/-- The negative relocation phrases, checked first in `parse_relocate`. -/
def negRelocate (t : String) : Bool :=
  strContains t "не готов к переезду" || strContains t "not ready to relocate" ||
  strContains t "not willing to relocate"

/-- The positive relocation phrases of `parse_relocate`. -/
def posRelocate (t : String) : Bool :=
  strContains t "готов к переезду" || strContains t "ready to relocate" ||
  strContains t "willing to relocate"

/-- `parse_relocate` from `parse_location.py`. -/
def parse_relocate (s : Cell) : Bool :=
  let t := safe_lower_cell s
  if t = "" then false
  else if negRelocate t then false
  else if posRelocate t then true
  else false

/-- The negative business-trip phrases, checked first in `parse_trips`. -/
def negTrips (t : String) : Bool :=
  strContains t "не готов к командировкам" || strContains t "not ready for business trips"

/-- The first positive business-trip phrase set of `parse_trips`. -/
def posTripsRu (t : String) : Bool :=
  strContains t "готов к командировкам" || strContains t "готов к редким командировкам"

/-- The second positive business-trip phrase set of `parse_trips`. -/
def posTripsEn (t : String) : Bool :=
  strContains t "ready for business trips" || strContains t "willing to travel"

/-- `parse_trips` from `parse_location.py`. -/
def parse_trips (s : Cell) : Bool :=
  let t := safe_lower_cell s
  if t = "" then false
  else if negTrips t then false
  else if posTripsRu t then true
  else if posTripsEn t then true
  else false

/-- Index of the fixed-name city column. -/
def cityIdx (t : Table) : Option Nat := idxOfName "Город" t.cols

/-- The per-row value written into `city`. -/
def cityF (t : Table) : List Cell → Cell :=
  match cityIdx t with
  | none => fun _ => Cell.str "Не указано"
  | some i => fun r => Cell.str (parse_city (r.getD i Cell.nan))

/-- The per-row value written into `relocate_ready`. -/
def relocateF (t : Table) : List Cell → Cell :=
  match cityIdx t with
  | none => fun _ => Cell.bool false
  | some i => fun r => Cell.bool (parse_relocate (r.getD i Cell.nan))

/-- The per-row value written into `trips_ready`. -/
def tripsF (t : Table) : List Cell → Cell :=
  match cityIdx t with
  | none => fun _ => Cell.bool false
  | some i => fun r => Cell.bool (parse_trips (r.getD i Cell.nan))

/-- `ParseLocationHandler._handle` on a table. -/
def locationStage (t : Table) : Table :=
  ((t.withCol "city" (cityF t)).withCol "relocate_ready" (relocateF t)).withCol
    "trips_ready" (tripsF t)

/-! ## Column cleaning (`handlers/clean_cols.py`) -/

/-- Python `str.strip` on a column header. -/
def pyStrip (s : String) : String :=
  String.mk (((s.data.dropWhile isPySpace).reverse.dropWhile isPySpace).reverse)

/-- Does the trimmed header start (case-insensitively) with the
placeholder token `unnamed`? -/
def colIsUnnamed (c : String) : Bool := leadsWith "unnamed".data (pyLower c).data

/-- `CleanColumnsHandler._handle` on a table: trim every header, then drop
the `unnamed` placeholder columns. -/
def cleanColumns (t : Table) : Table :=
  Table.dropCols ⟨t.cols.map pyStrip, t.rows⟩
    ((t.cols.map pyStrip).filter colIsUnnamed)

/-! ## Generic list lemmas -/

/-- `List.find?` returns the element at the first index whose predicate
holds, stated with `getD`. -/
theorem find_first_getD {α : Type} (p : α → Bool) (d : α) :
    ∀ (l : List α) (i : Nat), i < l.length →
      (∀ k, k < i → p (l.getD k d) = false) →
      p (l.getD i d) = true →
      l.find? p = some (l.getD i d) := by
  intro l
  induction l with
  | nil => intro i hi; simp at hi
  | cons a tl ih =>
    intro i hi hbefore hp
    cases i with
    | zero =>
      have ha : p a = true := hp
      simp [List.find?_cons_of_pos _ ha, List.getD]
    | succ n =>
      have ha : p a = false := hbefore 0 (Nat.succ_pos n)
      have hgd : (a :: tl).getD (n + 1) d = tl.getD n d := rfl
      rw [List.find?_cons_of_neg _ (by simp [ha]), hgd]
      exact ih n (Nat.lt_of_succ_lt_succ hi)
        (fun k hk => hbefore (k + 1) (Nat.succ_lt_succ hk)) hp

/-- Filtering a mapped list is mapping the filtered list. -/
theorem filter_map_eq {α β : Type} (f : α → β) (p : β → Bool) :
    ∀ l : List α, (l.map f).filter p = (l.filter (fun a => p (f a))).map f := by
  intro l
  induction l with
  | nil => rfl
  | cons a tl ih =>
    by_cases h : p (f a) <;> simp [List.filter_cons, h, ih]

/-- A filter whose predicate fails everywhere is empty. -/
theorem filter_nil_of_false {α : Type} (p : α → Bool) :
    ∀ l : List α, (∀ a ∈ l, p a = false) → l.filter p = [] := by
  intro l
  induction l with
  | nil => intro _; rfl
  | cons a tl ih =>
    intro h
    rw [List.filter_cons, if_neg (by simp [h a (List.mem_cons_self a tl)])]
    exact ih (fun x hx => h x (List.mem_cons_of_mem a hx))

/-- A name absent from the column list has no index. -/
theorem idxOfName_none_of_not_mem (name : String) :
    ∀ l : List String, name ∉ l → idxOfName name l = none := by
  intro l
  induction l with
  | nil => intro _; rfl
  | cons c rest ih =>
    intro h
    have hc : (c == name) = false := by
      refine beq_eq_false_iff_ne.mpr ?_
      intro e
      exact h (e ▸ List.mem_cons_self c rest)
    rw [idxOfName, if_neg (by simp [hc]), ih (fun m => h (List.mem_cons_of_mem c m))]
    rfl

/-! ## Row preservation machinery -/

/-- `withCol` rewrites every row in place, positionally. -/
theorem withCol_exists_map (t : Table) (n : String) (f : List Cell → Cell) :
    ∃ g, (t.withCol n f).rows = t.rows.map g := by
  unfold Table.withCol
  split
  · exact ⟨_, rfl⟩
  · exact ⟨_, rfl⟩

/-- `dropCols` rewrites every row in place, positionally. -/
theorem dropCols_exists_map (t : Table) (ns : List String) :
    ∃ g, (t.dropCols ns).rows = t.rows.map g :=
  ⟨_, rfl⟩

/-- Positional row rewriting composes across two table transformations. -/
theorem exists_map_trans {t0 t1 : Table} {rs : List (List Cell)}
    (h1 : ∃ g, t1.rows = t0.rows.map g) (h2 : ∃ g, rs = t1.rows.map g) :
    ∃ g, rs = t0.rows.map g := by
  obtain ⟨g1, e1⟩ := h1
  obtain ⟨g2, e2⟩ := h2
  refine ⟨fun r => g2 (g1 r), ?_⟩
  rw [e2, e1, List.map_map]
  rfl

/-- Positional row rewriting preserves the row count. -/
theorem rows_len_of_map {t0 : Table} {rs : List (List Cell)}
    (h : ∃ g, rs = t0.rows.map g) : rs.length = t0.rows.length := by
  obtain ⟨g, e⟩ := h
  rw [e, List.length_map]

/-- The column-cleaning stage rewrites rows positionally. -/
theorem cleanColumns_rows_map (t : Table) :
    ∃ g, (cleanColumns t).rows = t.rows.map g := by
  unfold cleanColumns
  exact exists_map_trans
    (⟨id, (List.map_id t.rows).symm⟩ :
      ∃ g, (Table.mk (t.cols.map pyStrip) t.rows).rows = t.rows.map g)
    (dropCols_exists_map _ _)

/-- Dropping the employer column rewrites rows positionally. -/
theorem dropEmployer_rows_map (t : Table) :
    ∃ g, (dropEmployer t).rows = t.rows.map g := by
  unfold dropEmployer
  split
  · exact dropCols_exists_map _ _
  · exact ⟨id, (List.map_id t.rows).symm⟩

/-- The job-category stage rewrites rows positionally. -/
theorem jobCategoryStage_rows_map (t : Table) :
    ∃ g, (jobCategoryStage t).rows = t.rows.map g := by
  unfold jobCategoryStage
  exact exists_map_trans
    (exists_map_trans
      (exists_map_trans (withCol_exists_map t _ _) (withCol_exists_map _ _ _))
      (dropCols_exists_map _ _))
    (dropEmployer_rows_map _)

/-- The education stage rewrites rows positionally. -/
theorem educationStage_rows_map (t : Table) :
    ∃ g, (educationStage t).rows = t.rows.map g := by
  unfold educationStage
  exact exists_map_trans (withCol_exists_map t _ _) (withCol_exists_map _ _ _)

/-- The location stage rewrites rows positionally. -/
theorem locationStage_rows_map (t : Table) :
    ∃ g, (locationStage t).rows = t.rows.map g := by
  unfold locationStage
  exact exists_map_trans
    (exists_map_trans (withCol_exists_map t _ _) (withCol_exists_map _ _ _))
    (withCol_exists_map _ _ _)

/-- The salary stage, when it succeeds, rewrites rows positionally. -/
theorem salaryStage_rows_map (fx : FxRates) (t t1 : Table) (d : SalaryDiag)
    (h : salaryStage fx t = Except.ok (t1, d)) :
    ∃ g, t1.rows = t.rows.map g := by
  unfold salaryStage at h
  cases hi : salIdx t with
  | none => rw [hi] at h; exact absurd h (by simp)
  | some i =>
    rw [hi] at h
    simp only [Except.ok.injEq, Prod.mk.injEq] at h
    obtain ⟨h1, -⟩ := h
    rw [← h1]
    exact exists_map_trans (withCol_exists_map t _ _) (withCol_exists_map _ _ _)

/-! ## Salary-stage lemmas -/

/-- The currency used by the loop — the detected one or the default
`RUB` — is never the empty string. -/
theorem detect_getD_ne (s : String) : (detect_currency s).getD "RUB" ≠ "" := by
  unfold detect_currency
  dsimp only
  repeat' split
  all_goals decide

/-- A successful `salaryRowCore` carries a non-empty currency code. -/
theorem rowCore_cur_ne (rates : List (String × ℚ)) (val : Cell) (rub : ℚ) (cur : String)
    (h : salaryRowCore rates val = some (rub, cur)) : cur ≠ "" := by
  unfold salaryRowCore at h
  cases val with
  | str v =>
    by_cases hs : normalize_spaces v = ""
    · simp [hs] at h
    · simp only [hs, if_false, if_neg] at h
      by_cases hn : isNegotiable (safe_lower_str (normalize_spaces v)) = true
      · simp [hn] at h
      · simp only [hn, Bool.false_eq_true, if_false] at h
        cases hres : resolveAmount (extract_numbers (normalize_spaces v)) with
        | none => rw [hres] at h; simp at h
        | some a =>
          rw [hres] at h
          cases hrate : lookupRate rates ((detect_currency (normalize_spaces v)).getD "RUB") with
          | none => rw [hrate] at h; simp at h
          | some r =>
            rw [hrate] at h
            simp only [Option.some.injEq, Prod.mk.injEq] at h
            rw [← h.2]
            exact detect_getD_ne _
  | num q => simp at h
  | bool b => simp at h
  | nan => simp at h

/-- A stored target value is strictly positive: the loop rejects any
non-positive converted amount. -/
theorem parseSalaryCell_pos (rates : List (String × ℚ)) (val : Cell) (q : ℚ)
    (h : (parseSalaryCell rates val).1 = some q) : 0 < q := by
  unfold parseSalaryCell at h
  cases hc : salaryRowCore rates val with
  | none => rw [hc] at h; simp at h
  | some p =>
    rw [hc] at h
    obtain ⟨rub, cur⟩ := p
    by_cases hr : rub ≤ 0
    · simp [hr] at h
    · simp only [hr, if_false] at h
      simp only [Option.some.injEq] at h
      rw [← h]
      exact lt_of_not_le hr

/-- Step-assembly of one successful `salaryRowCore` run from its
decidable string-level ingredients. -/
theorem salaryRowCore_eq (rates : List (String × ℚ)) (v : String) (a rate : ℚ) (c : String)
    (hs : ¬ normalize_spaces v = "")
    (hneg : isNegotiable (safe_lower_str (normalize_spaces v)) = false)
    (hcur : (detect_currency (normalize_spaces v)).getD "RUB" = c)
    (hres : resolveAmount (extract_numbers (normalize_spaces v)) = some a)
    (hrate : lookupRate rates c = some rate) :
    salaryRowCore rates (Cell.str v) =
      some (applyThousand (safe_lower_str (normalize_spaces v)) a * rate, c) := by
  unfold salaryRowCore
  dsimp only
  rw [if_neg hs, hcur, hneg]
  simp only [Bool.false_eq_true, if_false, hres, hrate]

/-! ## Claims -/

/-- C1: For every input table and every stage (Column Cleaning, Job
Category, Education Parsing, Location Parsing, Salary Normalization),
the table returned by the stage has exactly the same number of rows, in
the same order, as the table the stage received — each output row is a
positional rewrite of the corresponding input row, so stages only add,
drop, or rewrite columns. -/
theorem C1_row_count_invariance (t : Table) (fx : FxRates) (t1 : Table) (d : SalaryDiag) :
    ((cleanColumns t).rows.length = t.rows.length ∧
      ∃ g, (cleanColumns t).rows = t.rows.map g) ∧
    ((jobCategoryStage t).rows.length = t.rows.length ∧
      ∃ g, (jobCategoryStage t).rows = t.rows.map g) ∧
    ((educationStage t).rows.length = t.rows.length ∧
      ∃ g, (educationStage t).rows = t.rows.map g) ∧
    ((locationStage t).rows.length = t.rows.length ∧
      ∃ g, (locationStage t).rows = t.rows.map g) ∧
    (salaryStage fx t = Except.ok (t1, d) →
      t1.rows.length = t.rows.length ∧ ∃ g, t1.rows = t.rows.map g) := by
  refine ⟨⟨rows_len_of_map (cleanColumns_rows_map t), cleanColumns_rows_map t⟩,
    ⟨rows_len_of_map (jobCategoryStage_rows_map t), jobCategoryStage_rows_map t⟩,
    ⟨rows_len_of_map (educationStage_rows_map t), educationStage_rows_map t⟩,
    ⟨rows_len_of_map (locationStage_rows_map t), locationStage_rows_map t⟩,
    fun h => ⟨rows_len_of_map (salaryStage_rows_map fx t t1 d h), salaryStage_rows_map fx t t1 d h⟩⟩

/-- Witness for C1: the salary-stage conjunct instantiated at a concrete
one-row table on which the stage succeeds. -/
theorem C1_row_count_invariance_witness :
    (Table.mk ["ЗП", "salary_currency", "target_salary_rub"]
      [[Cell.nan, Cell.str "", Cell.nan]]).rows.length =
      (Table.mk ["ЗП"] [[Cell.nan]]).rows.length := by
  have h := C1_row_count_invariance ⟨["ЗП"], [[Cell.nan]]⟩ ⟨[], "src"⟩
    ⟨["ЗП", "salary_currency", "target_salary_rub"], [[Cell.nan, Cell.str "", Cell.nan]]⟩
    ⟨"src", 1, some [(Cell.nan, "")], 0⟩
  exact (h.2.2.2.2 rfl).1

/-- C2: for every row whose raw salary text contains a negotiable
marker, the salary stage leaves the target null and the currency empty,
regardless of any numbers or currency markers elsewhere in the text. -/
theorem C2_negotiable_exclusion :
    (∀ (rates : List (String × ℚ)) (v : String),
      isNegotiable (salaryNormText v) = true →
      parseSalaryCell rates (Cell.str v) = (none, "")) ∧
    parseSalaryCell [("RUB", 1)] (Cell.str "З/П по договорённости 100 000 руб.") = (none, "") := by
  constructor
  · intro rates v h
    rw [salaryNormText] at h
    unfold parseSalaryCell salaryRowCore
    dsimp only
    by_cases hs : normalize_spaces v = ""
    · simp [hs]
    · simp [hs, h]
  · decide

/-- Witness for C2: the general conjunct applied to a concrete
negotiable text containing numbers. -/
theorem C2_negotiable_exclusion_witness :
    parseSalaryCell [] (Cell.str "з/п по договорённости") = (none, "") :=
  C2_negotiable_exclusion.1 [] "з/п по договорённости" (by decide)

/-- C3: when number extraction finds at least two numbers, the
pre-scaling amount is the average of the first two and all further
numbers are ignored; with exactly one number, that number is the
amount; on the range text the extracted numbers are 80000 and 100000
and the amount is 90000. -/
theorem C3_amount_resolution :
    (∀ (s : String) (a b : Nat) (l : List Nat), extract_numbers s = a :: b :: l →
      resolveAmount (extract_numbers s) = some (((a : ℚ) + (b : ℚ)) / 2)) ∧
    (∀ (s : String) (a : Nat), extract_numbers s = [a] →
      resolveAmount (extract_numbers s) = some (a : ℚ)) ∧
    extract_numbers "от 80 000 до 100 000 руб." = [80000, 100000] ∧
    resolveAmount [80000, 100000] = some 90000 := by
  refine ⟨?_, ?_, by decide, ?_⟩
  · intro s a b l h
    rw [h]
    rfl
  · intro s a h
    rw [h]
    rfl
  · norm_num [resolveAmount]

/-- Witness for C3: the two-number conjunct applied to the concrete
range text. -/
theorem C3_amount_resolution_witness :
    resolveAmount (extract_numbers "от 80 000 до 100 000 руб.") = some 90000 := by
  have h := C3_amount_resolution
  have e := h.1 "от 80 000 до 100 000 руб." 80000 100000 [] h.2.2.1
  rw [e]
  norm_num

/-- A digit immediately followed by the letter k: the "60k" suffix form. -/
def hasDigitThenK : List Char → Bool
  | a :: b :: rest => (a.isDigit && (b == 'k' || b == 'K')) || hasDigitThenK (b :: rest)
  | _ => false

/-- Modelled from the spec: the thousand marker of claim C4 — a
"thousand" word ("тыс" or "thousand") or an abbreviated "k" suffix
written directly after a digit of the amount. -/
def spec_thousandMarker (t : String) : Bool :=
  strContains t "тыс" || strContains t "thousand" || hasDigitThenK t.data

/-- Counterexample to C4: the normalized text of "500000 KZT" contains
no thousand word and no "k" suffix attached to a number, yet the code
multiplies the amount by 1000 because the letter "k" occurs inside the
currency code "kzt"; the full row parse returns 100000000 roubles at a
rate of 1/5 instead of the unscaled 100000. -/
theorem C4_counterexample :
    spec_thousandMarker (salaryNormText "500000 KZT") = false ∧
    applyThousand (salaryNormText "500000 KZT") 500000 = 500000000 ∧
    applyThousand (salaryNormText "500000 KZT") 500000 ≠ 500000 ∧
    parseSalaryCell [("KZT", (1 : ℚ)/5)] (Cell.str "500000 KZT") = (some 100000000, "KZT") := by
  have hx : applyThousand (salaryNormText "500000 KZT") 500000 = (500000000 : ℚ) := by
    unfold applyThousand
    rw [if_pos (by decide : thousandCond (salaryNormText "500000 KZT") = true)]
    norm_num
  refine ⟨by decide, hx, by rw [hx]; norm_num, ?_⟩
  have hcore := salaryRowCore_eq [("KZT", (1 : ℚ)/5)] "500000 KZT" 500000 ((1 : ℚ)/5) "KZT"
    (by decide) (by decide) (by decide) (by decide) (by rfl)
  rw [show applyThousand (safe_lower_str (normalize_spaces "500000 KZT")) 500000 * ((1 : ℚ)/5) =
      100000000 by rw [show safe_lower_str (normalize_spaces "500000 KZT") =
        salaryNormText "500000 KZT" from rfl, hx]; norm_num] at hcore
  unfold parseSalaryCell
  rw [hcore]
  dsimp only
  rw [if_neg (by norm_num : ¬ ((100000000 : ℚ) ≤ 0))]

/-- C4 (amended): the extracted amount is multiplied by 1000 exactly
when the lowered text contains "тыс" or the letter "k" anywhere — even
inside an unrelated word such as the currency code "kzt" — and is left
unchanged otherwise; "60k USD" yields base amount 60 scaled to 60000
and converted by the USD rate to 5400000. -/
theorem C4_thousand_scaling :
    (∀ (t : String) (a : ℚ), thousandCond t = true → applyThousand t a = a * 1000) ∧
    (∀ (t : String) (a : ℚ), thousandCond t = false → applyThousand t a = a) ∧
    applyThousand (salaryNormText "60k USD") 60 = 60000 ∧
    parseSalaryCell [("USD", 90)] (Cell.str "60k USD") = (some 5400000, "USD") := by
  have hx : applyThousand (salaryNormText "60k USD") 60 = (60000 : ℚ) := by
    unfold applyThousand
    rw [if_pos (by decide : thousandCond (salaryNormText "60k USD") = true)]
    norm_num
  refine ⟨?_, ?_, hx, ?_⟩
  · intro t a h
    unfold applyThousand
    rw [if_pos h]
  · intro t a h
    unfold applyThousand
    rw [if_neg (by simp [h])]
  · have hcore := salaryRowCore_eq [("USD", 90)] "60k USD" 60 90 "USD"
      (by decide) (by decide) (by decide) (by decide) (by rfl)
    rw [show applyThousand (safe_lower_str (normalize_spaces "60k USD")) 60 * (90 : ℚ) =
        5400000 by rw [show safe_lower_str (normalize_spaces "60k USD") =
          salaryNormText "60k USD" from rfl, hx]; norm_num] at hcore
    unfold parseSalaryCell
    rw [hcore]
    dsimp only
    rw [if_neg (by norm_num : ¬ ((5400000 : ℚ) ≤ 0))]

/-- Witness for C4 (amended): the scaling conjunct applied to a concrete
text containing the "тыс" marker. -/
theorem C4_thousand_scaling_witness :
    applyThousand "120 тыс" 120 = 120 * 1000 :=
  C4_thousand_scaling.1 "120 тыс" 120 (by decide)

/-- C5: the salary stage fails with a run-aborting precondition error —
producing no table and hence writing no derived column and substituting
no defaults — when the context holds no table or when the fixed-name
salary column is absent. -/
theorem C5_missing_column_fatal :
    (∀ fx : FxRates, parseSalaryHandle fx none = Except.error "DataFrame is not loaded") ∧
    (∀ (fx : FxRates) (t : Table), "ЗП" ∉ t.cols →
      salaryStage fx t = Except.error "Required target column ЗП not found") := by
  constructor
  · intro fx
    rfl
  · intro fx t h
    unfold salaryStage salIdx
    rw [idxOfName_none_of_not_mem "ЗП" t.cols h]

/-- Witness for C5: the missing-column conjunct at a concrete table. -/
theorem C5_missing_column_fatal_witness :
    salaryStage ⟨[], "src"⟩ ⟨["Город"], []⟩ =
      Except.error "Required target column ЗП not found" :=
  C5_missing_column_fatal.2 ⟨[], "src"⟩ ⟨["Город"], []⟩ (by decide)

/-- `withCol` on a fresh column name appends the column on the right. -/
theorem withCol_absent (cols : List String) (rows : List (List Cell)) (name : String)
    (f : List Cell → Cell) (h : idxOfName name cols = none) :
    (Table.mk cols rows).withCol name f =
      Table.mk (cols ++ [name]) (rows.map (fun r => r ++ [f r])) := by
  unfold Table.withCol
  rw [h]

/-- Modelled from the spec: claim C6's pre-rejection bookkeeping — the
number of rows whose converted rouble amount is exactly zero before the
non-positive rejection step discards them. -/
def spec_preRejectionZeroCount (rates : List (String × ℚ)) (cells : List Cell) : Nat :=
  (cells.filter (fun c =>
    match salaryRowCore rates c with
    | some p => decide (p.1 = 0)
    | none => false)).length

/-- Counterexample to C6: on the single row "0 руб." with a unit rouble
rate, the converted amount before rejection is exactly zero — the claim
therefore demands a recorded zero-count of 1 — yet the stage records
target_zeros = 0, because it counts zeros of the final target column
written after the non-positive rejection step nulled the row. -/
theorem C6_counterexample :
    spec_preRejectionZeroCount [("RUB", 1)] [Cell.str "0 руб."] = 1 ∧
    salaryStage ⟨[("RUB", 1)], "cbr"⟩ ⟨["ЗП"], [[Cell.str "0 руб."]]⟩ =
      Except.ok (⟨["ЗП", "salary_currency", "target_salary_rub"],
        [[Cell.str "0 руб.", Cell.str "", Cell.nan]]⟩,
        ⟨"cbr", 1, some [(Cell.str "0 руб.", "")], 0⟩) := by
  have hcore : salaryRowCore [("RUB", 1)] (Cell.str "0 руб.") = some (0, "RUB") := by
    have h0 := salaryRowCore_eq [("RUB", 1)] "0 руб." 0 1 "RUB"
      (by decide) (by decide) (by decide) (by decide) (by rfl)
    rw [show applyThousand (safe_lower_str (normalize_spaces "0 руб.")) 0 * (1 : ℚ) = 0 by
      unfold applyThousand
      rw [if_neg (by decide : ¬ thousandCond (safe_lower_str (normalize_spaces "0 руб.")) = true)]
      norm_num] at h0
    exact h0
  have hp : parseSalaryCell [("RUB", 1)] (Cell.str "0 руб.") = (none, "") := by
    unfold parseSalaryCell
    rw [hcore]
    dsimp only
    rw [if_pos (le_refl (0 : ℚ))]
  constructor
  · unfold spec_preRejectionZeroCount
    rw [List.filter_cons, if_pos (by rw [hcore]; decide)]
    rfl
  · unfold salaryStage
    rw [show salIdx ⟨["ЗП"], [[Cell.str "0 руб."]]⟩ = some 0 from rfl]
    dsimp only
    simp only [List.map_cons, List.map_nil, List.getD, List.get?, Option.getD_some]
    rw [hp]
    rw [withCol_absent ["ЗП"] [[Cell.str "0 руб."]] "salary_currency" _ rfl]
    simp only [List.map_cons, List.map_nil, List.cons_append, List.nil_append,
      List.getD, List.get?, Option.getD_some]
    rw [hp]
    rw [withCol_absent ["ЗП", "salary_currency"] [[Cell.str "0 руб.", Cell.str ""]]
      "target_salary_rub" _ rfl]
    simp only [List.map_cons, List.map_nil, List.cons_append, List.nil_append,
      List.getD, List.get?, Option.getD_some]
    rw [hp]
    rfl

/-- C6 (amended): after the salary stage processes all rows, the
diagnostics hold the FX source tag, the count of rows with a null
target, a bounded sample (at most 20 rows, present exactly when some row
is null) of the original text with the stored currency of null rows, and
the count of exact-zero values of the final target column — which is
always 0, because the non-positive rejection step nulls every zero
conversion before that column is written. -/
theorem C6_diagnostics (fx : FxRates) (t t1 : Table) (d : SalaryDiag) (i : Nat)
    (hi : salIdx t = some i) (h : salaryStage fx t = Except.ok (t1, d)) :
    d.fx_rates_source = fx.source ∧
    d.rows_with_nan_target =
      (t.rows.filter (fun r =>
        Option.isNone (parseSalaryCell fx.rates (r.getD i Cell.nan)).1)).length ∧
    (d.rows_with_nan_target = 0 → d.nan_target_examples = none) ∧
    (d.rows_with_nan_target ≠ 0 → d.nan_target_examples = some
      (((t.rows.filter (fun r =>
          Option.isNone (parseSalaryCell fx.rates (r.getD i Cell.nan)).1)).map
        (fun r => (r.getD i Cell.nan, (parseSalaryCell fx.rates (r.getD i Cell.nan)).2))).take 20)) ∧
    (∀ l, d.nan_target_examples = some l → l.length ≤ 20) ∧
    d.target_zeros = 0 := by
  unfold salaryStage at h
  rw [hi] at h
  dsimp only at h
  simp only [Except.ok.injEq, Prod.mk.injEq] at h
  obtain ⟨-, hd⟩ := h
  have hfil :
      (t.rows.map (fun r => (r.getD i Cell.nan, parseSalaryCell fx.rates (r.getD i Cell.nan)))).filter
        (fun p => Option.isNone p.2.1) =
      (t.rows.filter (fun r =>
        Option.isNone (parseSalaryCell fx.rates (r.getD i Cell.nan)).1)).map
        (fun r => (r.getD i Cell.nan, parseSalaryCell fx.rates (r.getD i Cell.nan))) := by
    rw [filter_map_eq]
  have hzero :
      (t.rows.map (fun r => (r.getD i Cell.nan, parseSalaryCell fx.rates (r.getD i Cell.nan)))).filter
        (fun p => decide (p.2.1 = some (0 : ℚ))) = [] := by
    refine filter_nil_of_false _ _ ?_
    intro p hp
    obtain ⟨r, -, hr⟩ := List.mem_map.mp hp
    rw [← hr]
    simp only [decide_eq_false_iff_not]
    intro e
    exact absurd (parseSalaryCell_pos fx.rates (r.getD i Cell.nan) 0 e) (lt_irrefl 0)
  rw [← hd]
  refine ⟨rfl, ?_, ?_, ?_, ?_, ?_⟩
  · dsimp only
    rw [hfil, List.length_map]
  · intro hz
    dsimp only at hz ⊢
    rw [hfil, List.length_map] at hz
    rw [if_pos]
    rw [hfil, List.isEmpty_iff, List.map_eq_nil_iff]
    exact List.length_eq_zero.mp hz
  · intro hz
    dsimp only at hz ⊢
    rw [hfil, List.length_map] at hz
    rw [if_neg (by
      rw [hfil, List.isEmpty_iff, List.map_eq_nil_iff]
      intro e
      exact hz (by rw [e]; rfl))]
    rw [hfil, List.map_map]
    rfl
  · intro l hl
    dsimp only at hl
    by_cases he :
        ((t.rows.map (fun r => (r.getD i Cell.nan, parseSalaryCell fx.rates (r.getD i Cell.nan)))).filter
          (fun p => Option.isNone p.2.1)).isEmpty = true
    · rw [if_pos he] at hl
      exact absurd hl (by simp)
    · rw [if_neg he] at hl
      injection hl with hx
      rw [← hx, List.length_take]
      exact Nat.min_le_left _ _
  · dsimp only
    rw [hzero]
    rfl

/-- Witness for C6 (amended): the diagnostics theorem applied to a
concrete successful run with one unparseable row. -/
theorem C6_diagnostics_witness :
    (SalaryDiag.mk "src" 1 (some [(Cell.nan, "")]) 0).target_zeros = 0 := by
  have h := C6_diagnostics ⟨[], "src"⟩ ⟨["ЗП"], [[Cell.nan]]⟩
    ⟨["ЗП", "salary_currency", "target_salary_rub"], [[Cell.nan, Cell.str "", Cell.nan]]⟩
    ⟨"src", 1, some [(Cell.nan, "")], 0⟩ 0 rfl rfl
  exact h.2.2.2.2.2

/-- C7: parse_relocate and parse_trips evaluate the negative keyword
phrases before the positive ones and default to false when neither
matches; in particular a text containing "не готов к переезду" yields
relocate_ready = false even though the positive phrase "готов к
переезду" occurs in it as a substring. -/
theorem C7_negative_precedence :
    (∀ s : Cell, negRelocate (safe_lower_cell s) = true → parse_relocate s = false) ∧
    (∀ s : Cell, negRelocate (safe_lower_cell s) = false →
      posRelocate (safe_lower_cell s) = false → parse_relocate s = false) ∧
    (∀ s : Cell, negTrips (safe_lower_cell s) = true → parse_trips s = false) ∧
    (∀ s : Cell, negTrips (safe_lower_cell s) = false →
      posTripsRu (safe_lower_cell s) = false → posTripsEn (safe_lower_cell s) = false →
      parse_trips s = false) ∧
    parse_relocate (Cell.str "Санкт-Петербург, не готов к переезду") = false ∧
    posRelocate (safe_lower_cell (Cell.str "Санкт-Петербург, не готов к переезду")) = true := by
  refine ⟨?_, ?_, ?_, ?_, by decide, by decide⟩
  · intro s h
    unfold parse_relocate
    dsimp only
    by_cases he : safe_lower_cell s = ""
    · simp [he]
    · simp [he, h]
  · intro s hn hp
    unfold parse_relocate
    dsimp only
    by_cases he : safe_lower_cell s = ""
    · simp [he]
    · simp [he, hn, hp]
  · intro s h
    unfold parse_trips
    dsimp only
    by_cases he : safe_lower_cell s = ""
    · simp [he]
    · simp [he, h]
  · intro s hn hp1 hp2
    unfold parse_trips
    dsimp only
    by_cases he : safe_lower_cell s = ""
    · simp [he]
    · simp [he, hn, hp1, hp2]

/-- Witness for C7: the negative-precedence conjunct for relocation
applied to a concrete city text. -/
theorem C7_negative_precedence_witness :
    parse_relocate (Cell.str "Москва, не готов к переезду") = false :=
  C7_negative_precedence.1 (Cell.str "Москва, не готов к переезду") (by decide)

/-- C8: categorize_job_title is first-match-wins over the fixed ordered
rule list: whenever a rule matches the normalized title and no earlier
rule matches, its label is returned — so a title whose text also matches
a later rule still gets the earlier rule's label; a title containing
both "devops" and "developer" is labeled DevOps/SRE, not by the later
developer rule. -/
theorem C8_first_match_wins :
    (∀ (title : Cell) (i j : Nat), i < j → j < jobRules.length →
      (∀ k, k < i → ruleMatches (safe_lower_cell title) (jobRules.getD k ("", [])) = false) →
      ruleMatches (safe_lower_cell title) (jobRules.getD i ("", [])) = true →
      ruleMatches (safe_lower_cell title) (jobRules.getD j ("", [])) = true →
      safe_lower_cell title ≠ "" →
      categorize_job_title title = (jobRules.getD i ("", [])).1) ∧
    categorize_job_title (Cell.str "devops developer") = "DevOps/SRE" := by
  constructor
  · intro title i j hij hj hbefore hi hmj hne
    unfold categorize_job_title
    rw [if_neg hne,
      find_first_getD (ruleMatches (safe_lower_cell title)) ("", []) jobRules i
        (Nat.lt_trans hij hj) hbefore hi]
  · decide

/-- Witness for C8: the general conjunct applied to a title matching
both the DevOps rule (index 1) and the developer rule (index 6). -/
theorem C8_first_match_wins_witness :
    categorize_job_title (Cell.str "devops developer") =
      (jobRules.getD 1 ("", [])).1 :=
  C8_first_match_wins.1 (Cell.str "devops developer") 1 6 (by decide) (by decide)
    (by decide) (by decide) (by decide) (by decide)

/-- C9: after the salary stage, a row's stored currency is non-empty if
and only if its stored target is non-null — both are set together only
on full success, so a row whose currency was detected but whose
conversion failed keeps an empty salary_currency. -/
theorem C9_currency_iff_target (rates : List (String × ℚ)) (val : Cell) :
    (parseSalaryCell rates val).2 ≠ "" ↔ (parseSalaryCell rates val).1 ≠ none := by
  unfold parseSalaryCell
  cases hc : salaryRowCore rates val with
  | none => simp
  | some p =>
    obtain ⟨rub, cur⟩ := p
    by_cases hr : rub ≤ 0
    · simp [hr]
    · simp only [hr, if_false]
      exact iff_of_true (rowCore_cur_ne rates val rub cur hc) (by simp)

/-- C10: the IT rule fires on the two-letter substring "it" anywhere in
the normalized text, including inside unrelated words: every title that
contains "it" and matches none of the seven rules ordered before the IT
rule gets the IT-specialist label — e.g. "Recruiter" is labeled
IT-специалист even though the HR/recruiter rule exists later in the
order. -/
theorem C10_it_substring :
    (∀ title : Cell,
      strContains (safe_lower_cell title) "it" = true →
      (∀ k, k < 7 → ruleMatches (safe_lower_cell title) (jobRules.getD k ("", [])) = false) →
      categorize_job_title title = "IT-специалист") ∧
    categorize_job_title (Cell.str "Recruiter") = "IT-специалист" := by
  constructor
  · intro title hit hbefore
    have hne : safe_lower_cell title ≠ "" := by
      intro he
      rw [he] at hit
      exact absurd hit (by decide)
    have hm : ruleMatches (safe_lower_cell title) (jobRules.getD 7 ("", [])) = true := by
      rw [show jobRules.getD 7 ("", []) = ("IT-специалист", ["it", "айти"]) from rfl]
      unfold ruleMatches
      simp [List.any_cons, hit]
    unfold categorize_job_title
    rw [if_neg hne,
      find_first_getD (ruleMatches (safe_lower_cell title)) ("", []) jobRules 7
        (by decide) hbefore hm]
    rfl
  · decide

/-- Witness for C10: the general conjunct applied to "Recruiter", which
contains "it" and matches no rule ordered before the IT rule. -/
theorem C10_it_substring_witness :
    categorize_job_title (Cell.str "Recruiter") = "IT-специалист" :=
  C10_it_substring.1 (Cell.str "Recruiter") (by decide) (by decide)

end HH
